import Mathlib

/-!
Shallow embedding of the FRAM_FM24CXX_I2C driver
(`src/FRAM_FM24CXX_I2C.cpp` / `.h`).

The I2C transport (`Wire`) and the GPIO lines are external collaborators;
they are modelled as an explicit state machine `Sys` carrying the FRAM
device memory, the open transaction buffer, an event log (so "zero bus
activity" is statable), and a fault oracle: `faults k` is the status code
the transport reports for the k-th `endTransmission`, and `rxFaults k`
tells whether the k-th `requestFrom` delivers no data.  A transaction
whose end status is nonzero is not committed to device memory.

The FRAM device follows the addressing scheme of the FM24C04 family used
by the driver: the low bit of the bus selector is memory-address bit 8,
the single sub-address byte gives bits 0-7, and the device latches a
current-address pointer at the end of the address phase, which a
subsequent `requestFrom` reads from sequentially.

Machine integers are modelled as `Nat` with explicit `% 256` at the
`uint8_t` boundaries (`Wire.write` truncates its argument; bytes coming
off the wire are truncated on arrival).  In the range guard
`framAddr + (uint16_t)items - 1`, both operands promote to `int`, so the
subtraction is signed: it is modelled over `Int` (no overflow is possible
since `framAddr < 2^16` and `items < 2^8`).
-/

/-- From `FRAM_FM24CXX_I2C.h`: `#define MAXADDRESS_04 512`. -/
def MAXADDRESS_04 : Nat := 512

/-- From `FRAM_FM24CXX_I2C.h`: `#define MANAGE_WP false`. -/
def MANAGE_WP : Bool := false

/-- Success status code. -/
def ERROR_0 : Nat := 0

/-- Number of bytes asked to read is null. -/
def ERROR_8 : Nat := 8

/-- Bit position out of range. -/
def ERROR_9 : Nat := 9

/-- Not permitted operation. -/
def ERROR_10 : Nat := 10

/-- Memory address out of range. -/
def ERROR_11 : Nat := 11

/-- One observable transport event (for the test-double view of the bus). -/
inductive WireEvent where
  | beginTx : Nat → WireEvent
  | writeB : Nat → WireEvent
  | endTx : Nat → WireEvent
  | requestFromEv : Nat → Nat → WireEvent
  | readB : Nat → WireEvent
deriving DecidableEq, Repr

/-- Full machine state: FRAM device + Wire transport + GPIO + the driver
object's member variables (`i2c_addr`, `wpPin`, `wpStatus`). -/
structure Sys where
  mem : Nat → Nat
  ptr : Nat
  txSel : Nat
  txBuf : List Nat
  rx : List Nat
  log : List WireEvent
  faults : Nat → Nat
  rxFaults : Nat → Bool
  txCount : Nat
  rqCount : Nat
  gpio : List (Int × Bool)
  pinModes : List Int
  i2c_addr : Nat
  wpPin : Int
  wpStatus : Bool

/-- A bus on which every transaction succeeds and every read request
delivers its data. -/
def faultFree (s : Sys) : Prop :=
  (∀ k, s.faults k = 0) ∧ (∀ k, s.rxFaults k = false)

/-- Store a list of bytes into device memory at consecutive addresses
(the device's address space wraps at 512). -/
def storeBytes (mem : Nat → Nat) (base : Nat) : List Nat → (Nat → Nat)
  | [] => mem
  | b :: rest => storeBytes (Function.update mem (base % 512) b) (base + 1) rest

/-- The bytes the device returns for a read of `n` bytes starting at its
current-address pointer (wrapping at 512, truncated to `uint8_t`). -/
def fetchBytes (mem : Nat → Nat) (base n : Nat) : List Nat :=
  (List.range n).map fun i => mem ((base + i) % 512) % 256

namespace Wire

/-- `Wire.beginTransmission(selector)`: open a transaction, reset the
transmit buffer. -/
def beginTransmission (sel : Nat) (s : Sys) : Sys :=
  { s with txSel := sel, txBuf := [], log := s.log ++ [WireEvent.beginTx sel] }

/-- `Wire.write(b)`: buffer one byte (the argument is a `uint8_t`). -/
def write (b : Nat) (s : Sys) : Sys :=
  { s with txBuf := s.txBuf ++ [b % 256],
           log := s.log ++ [WireEvent.writeB (b % 256)] }

/-- Commit a successfully ended transaction to the FRAM device: the first
buffered byte is the sub-address, selector bit 0 is address bit 8, the
remaining bytes are data; the current-address pointer is latched. -/
def commit (s : Sys) : Sys :=
  match s.txBuf with
  | [] => s
  | sub :: data =>
      let base := (s.txSel % 2) * 256 + sub
      { s with mem := storeBytes s.mem base data,
               ptr := (base + data.length) % 512 }

/-- `Wire.endTransmission()`: report the fault oracle's status for this
transaction; on status 0 the device commits it. -/
def endTransmission (s : Sys) : Nat × Sys :=
  let status := s.faults s.txCount
  let s' := if status = 0 then commit s else s
  (status,
   { s' with txBuf := [], txCount := s.txCount + 1,
             log := s'.log ++ [WireEvent.endTx status] })

/-- `Wire.requestFrom(sel, n)`: the device streams `n` bytes from its
current-address pointer into the receive buffer, unless this read request
is faulted, in which case nothing arrives. -/
def requestFrom (sel n : Nat) (s : Sys) : Sys :=
  let ok := s.rxFaults s.rqCount = false
  { s with rx := if ok then fetchBytes s.mem s.ptr n else [],
           ptr := if ok then (s.ptr + n) % 512 else s.ptr,
           rqCount := s.rqCount + 1,
           log := s.log ++ [WireEvent.requestFromEv sel n] }

/-- `Wire.read()`: pop one received byte; an exhausted buffer yields `-1`,
which the driver stores into a `uint8_t`, i.e. 255. -/
def read (s : Sys) : Nat × Sys :=
  match s.rx with
  | [] => (255, { s with log := s.log ++ [WireEvent.readB 255] })
  | b :: rest => (b, { s with rx := rest, log := s.log ++ [WireEvent.readB b] })

end Wire

/-- The address-range guard of `writeArray`/`readArray` (line 90/147):
`(framAddr >= MAXADDRESS_04) || ((framAddr + (uint16_t)items - 1) >= MAXADDRESS_04)`,
with the second comparison in signed `int` arithmetic. -/
def rangeGuardFails (framAddr items : Nat) : Bool :=
  decide (framAddr ≥ MAXADDRESS_04) ||
    decide ((framAddr : Int) + (items : Int) - 1 ≥ (MAXADDRESS_04 : Int))

/-- The C loop `for (i = 0; i < items; i++) Wire.write(values[i]);`
desugared: write the listed bytes in order. -/
def writeData : List Nat → Sys → Sys
  | [], s => s
  | b :: rest, s => writeData rest (Wire.write b s)

/-- `values[i]` for `i` in `[0, items)` as a list (array indexing of the
C buffer; entries past the caller's buffer are unspecified, taken as 0). -/
def takeItems (items : Nat) (values : List Nat) : List Nat :=
  (List.range items).map fun i => values.getD i 0

/-- The C loop `for (i = 0; i < items; i++) values[i] = Wire.read();`. -/
def readData : Nat → Nat → List Nat → Sys → List Nat × Sys
  | 0, _, values, s => (values, s)
  | n + 1, idx, values, s =>
      let r := Wire.read s
      readData n (idx + 1) (values.set idx r.1) r.2

/-- `FRAM_FM24CXX_I2C::writeArray` (lines 88-104). -/
def writeArray (framAddr items : Nat) (values : List Nat) (s : Sys) :
    Nat × Sys :=
  if rangeGuardFails framAddr items then (ERROR_11, s)
  else
    let s1 := Wire.beginTransmission (s.i2c_addr ||| ((framAddr >>> 8) &&& 1)) s
    let s2 := Wire.write (framAddr &&& 255) s1
    let s3 := writeData (takeItems items values) s2
    Wire.endTransmission s3

/-- `FRAM_FM24CXX_I2C::readArray` (lines 145-171).  The result triple is
(returned status, final contents of the caller's `values` buffer, state);
note the returned status is the address-phase `endTransmission` result
and `requestFrom` uses the bare `i2c_addr`. -/
def readArray (framAddr items : Nat) (values : List Nat) (s : Sys) :
    Nat × List Nat × Sys :=
  if rangeGuardFails framAddr items then (ERROR_11, values, s)
  else if items = 0 then (ERROR_8, values, s)
  else
    let s1 := Wire.beginTransmission (s.i2c_addr ||| ((framAddr >>> 8) &&& 1)) s
    let s2 := Wire.write (framAddr &&& 255) s1
    let r := Wire.endTransmission s2
    let s4 := Wire.requestFrom s.i2c_addr items r.2
    let rd := readData items 0 values s4
    (r.1, rd.1, rd.2)

/-- `FRAM_FM24CXX_I2C::writeByte` (lines 121-125). -/
def writeByte (framAddr value : Nat) (s : Sys) : Nat × Sys :=
  writeArray framAddr 1 [value] s

/-- `FRAM_FM24CXX_I2C::readByte` (lines 187-193); the local `buffer[1]`
is uninitialised, modelled as 0. -/
def readByte (framAddr : Nat) (s : Sys) : Nat × Nat × Sys :=
  let r := readArray framAddr 1 [0] s
  (r.1, r.2.1.getD 0 0, r.2.2)

/-- `FRAM_FM24CXX_I2C::readBit` (lines 232-244); the out-parameter `*bit`
is only assigned in the in-range branch, hence `Option`. -/
def readBit (framAddr bitNb : Nat) (s : Sys) : Nat × Option Nat × Sys :=
  if bitNb > 7 then (ERROR_9, none, s)
  else
    let r := readArray framAddr 1 [0] s
    (r.1, some ((r.2.1.getD 0 0 >>> bitNb) &&& 1), r.2.2)

/-- `FRAM_FM24CXX_I2C::setOneBit` (lines 259-272); the read status is
overwritten by the write status, as in the source. -/
def setOneBit (framAddr bitNb : Nat) (s : Sys) : Nat × Sys :=
  if bitNb > 7 then (ERROR_9, s)
  else
    let r := readArray framAddr 1 [0] s
    writeArray framAddr 1 [r.2.1.getD 0 0 ||| (1 <<< bitNb)] r.2.2

/-- `FRAM_FM24CXX_I2C::clearOneBit` (lines 286-299); `bitClear` on a
`uint8_t` masks with the complement of the bit. -/
def clearOneBit (framAddr bitNb : Nat) (s : Sys) : Nat × Sys :=
  if bitNb > 7 then (ERROR_9, s)
  else
    let r := readArray framAddr 1 [0] s
    writeArray framAddr 1 [r.2.1.getD 0 0 &&& (255 ^^^ (1 <<< bitNb))] r.2.2

/-- The byte update of `FRAM_FM24CXX_I2C::toggleBit` (lines 323-329):
explicit compare-then-clear/set, as in the source. -/
def toggleByteFn (x bitNb : Nat) : Nat :=
  if x &&& (1 <<< bitNb) = 1 <<< bitNb
  then x &&& (255 ^^^ (1 <<< bitNb))
  else x ||| (1 <<< bitNb)

/-- `FRAM_FM24CXX_I2C::toggleBit` (lines 313-333). -/
def toggleBit (framAddr bitNb : Nat) (s : Sys) : Nat × Sys :=
  if bitNb > 7 then (ERROR_9, s)
  else
    let r := readArray framAddr 1 [0] s
    writeArray framAddr 1 [toggleByteFn (r.2.1.getD 0 0) bitNb] r.2.2

/-- `FRAM_FM24CXX_I2C::getWPStatus` (lines 435-437). -/
def getWPStatus (s : Sys) : Bool := s.wpStatus

/-- `FRAM_FM24CXX_I2C::enableWP` (lines 453-464): guarded by the
compile-time `MANAGE_WP`; the managed branch drives the pin high. -/
def enableWP (s : Sys) : Nat × Sys :=
  if MANAGE_WP then
    (ERROR_0, { s with gpio := s.gpio ++ [(s.wpPin, true)], wpStatus := true })
  else (ERROR_10, s)

/-- `FRAM_FM24CXX_I2C::disableWP` (lines 479-490). -/
def disableWP (s : Sys) : Nat × Sys :=
  if MANAGE_WP then
    (ERROR_0, { s with gpio := s.gpio ++ [(s.wpPin, false)], wpStatus := false })
  else (ERROR_10, s)

/-- `FRAM_FM24CXX_I2C::initWP` (lines 556-572). -/
def initWP (wp : Bool) (s : Sys) : Nat × Sys :=
  if MANAGE_WP then
    let s' := { s with pinModes := s.pinModes ++ [s.wpPin] }
    if wp then enableWP s' else disableWP s'
  else (ERROR_0, { s with wpStatus := false })

/-- The loop of `FRAM_FM24CXX_I2C::eraseDevice` (lines 512-515):
`while ((i < MAXADDRESS_04) && (result == 0)) { result = writeByte(i, 0); i++; }`,
with fuel `MAXADDRESS_04 - i` for termination. -/
def eraseLoop : Nat → Nat → Nat → Sys → Nat × Sys
  | 0, _, result, s => (result, s)
  | fuel + 1, i, result, s =>
      if i < MAXADDRESS_04 ∧ result = 0 then
        let r := writeByte i 0 s
        eraseLoop fuel (i + 1) r.1 r.2
      else (result, s)

/-- `FRAM_FM24CXX_I2C::eraseDevice` (lines 502-532). -/
def eraseDevice (s : Sys) : Nat × Sys :=
  eraseLoop MAXADDRESS_04 0 0 s

/-- The constructor `FRAM_FM24CXX_I2C::FRAM_FM24CXX_I2C` (lines 36-40).
Its body is `i2c_addr = i2c_addr; wpPin = pin; initWP(wp);` — the first
statement assigns the parameter to itself, so the member `i2c_addr`
keeps its prior (indeterminate) value, and the `chipDensity` parameter
is never used.  The parameters are kept in the signature to mirror the
source. -/
def construct (addressParam : Nat) (wp : Bool) (pin : Int)
    (chipDensity : Nat) (s : Sys) : Sys :=
  let _ := addressParam
  let _ := chipDensity
  let s1 := { s with wpPin := pin }
  (initWP wp s1).2

/-- A concrete machine state for witnesses: zeroed FRAM, fault-free bus,
driver member `i2c_addr = 0x50`, `wpPin = 13`. -/
def initSys : Sys where
  mem := fun _ => 0
  ptr := 0
  txSel := 0
  txBuf := []
  rx := []
  log := []
  faults := fun _ => 0
  rxFaults := fun _ => false
  txCount := 0
  rqCount := 0
  gpio := []
  pinModes := []
  i2c_addr := 80
  wpPin := 13
  wpStatus := false

/-! ### Remaining API operations (needed for the reachable-state relation) -/

/-- `FRAM_FM24CXX_I2C::copyByte` (lines 208-214): the read status is
overwritten, only the write status is returned. -/
def copyByte (origAddr destAddr : Nat) (s : Sys) : Nat × Sys :=
  let r := readByte origAddr s
  writeByte destAddr r.2.1 r.2.2

/-- `FRAM_FM24CXX_I2C::readWord` (lines 346-352); the source
reinterprets the 2-byte buffer as a `uint16_t`, little-endian on the
Arduino targets. -/
def readWord (framAddr : Nat) (s : Sys) : Nat × Nat × Sys :=
  let r := readArray framAddr 2 [0, 0] s
  (r.1, r.2.1.getD 0 0 + 256 * r.2.1.getD 1 0, r.2.2)

/-- `FRAM_FM24CXX_I2C::writeWord` (lines 366-370); the source
reinterprets the `uint16_t` as 2 bytes, little-endian. -/
def writeWord (framAddr value : Nat) (s : Sys) : Nat × Sys :=
  writeArray framAddr 2 [value % 256, (value >>> 8) % 256] s

/-- `FRAM_FM24CXX_I2C::readLong` (lines 383-390), little-endian. -/
def readLong (framAddr : Nat) (s : Sys) : Nat × Nat × Sys :=
  let r := readArray framAddr 4 [0, 0, 0, 0] s
  (r.1,
   r.2.1.getD 0 0 + 256 * r.2.1.getD 1 0 + 65536 * r.2.1.getD 2 0 +
     16777216 * r.2.1.getD 3 0,
   r.2.2)

/-- `FRAM_FM24CXX_I2C::writeLong` (lines 403-407), little-endian. -/
def writeLong (framAddr value : Nat) (s : Sys) : Nat × Sys :=
  writeArray framAddr 4
    [value % 256, (value >>> 8) % 256, (value >>> 16) % 256,
     (value >>> 24) % 256] s

/-! ### Reachability: states produced by the public API -/

/-- One public API call, as a relation between the machine state before
and after. -/
inductive Step : Sys → Sys → Prop where
  | writeArrayStep (a n : Nat) (vs : List Nat) (s : Sys) :
      Step s (writeArray a n vs s).2
  | readArrayStep (a n : Nat) (vs : List Nat) (s : Sys) :
      Step s (readArray a n vs s).2.2
  | writeByteStep (a v : Nat) (s : Sys) : Step s (writeByte a v s).2
  | readByteStep (a : Nat) (s : Sys) : Step s (readByte a s).2.2
  | copyByteStep (a b : Nat) (s : Sys) : Step s (copyByte a b s).2
  | readBitStep (a n : Nat) (s : Sys) : Step s (readBit a n s).2.2
  | setOneBitStep (a n : Nat) (s : Sys) : Step s (setOneBit a n s).2
  | clearOneBitStep (a n : Nat) (s : Sys) : Step s (clearOneBit a n s).2
  | toggleBitStep (a n : Nat) (s : Sys) : Step s (toggleBit a n s).2
  | readWordStep (a : Nat) (s : Sys) : Step s (readWord a s).2.2
  | writeWordStep (a v : Nat) (s : Sys) : Step s (writeWord a v s).2
  | readLongStep (a : Nat) (s : Sys) : Step s (readLong a s).2.2
  | writeLongStep (a v : Nat) (s : Sys) : Step s (writeLong a v s).2
  | eraseDeviceStep (s : Sys) : Step s (eraseDevice s).2
  | enableWPStep (s : Sys) : Step s (enableWP s).2
  | disableWPStep (s : Sys) : Step s (disableWP s).2

/-- States reachable from a freshly constructed handle through any
sequence of public API calls. -/
inductive Reachable : Sys → Prop where
  | init (addr : Nat) (wp : Bool) (pin : Int) (d : Nat) (s0 : Sys) :
      Reachable (construct addr wp pin d s0)
  | step {s t : Sys} : Reachable s → Step s t → Reachable t

/-- The device memory address selected by driver address `a` on a handle
whose member selector is `c`: bit 0 of the transmitted selector supplies
address bit 8, the sub-address byte supplies bits 0-7. -/
def baseMap (c a : Nat) : Nat :=
  ((c ||| ((a >>> 8) &&& 1)) % 2) * 256 + (a &&& 255)

/-- The transport events of the ascending single-byte-write sweep of
eraseDevice, for addresses `i, i+1, ..., i+fuel-1` on a fault-free bus. -/
def eraseTraceFrom (c i fuel : Nat) : List WireEvent :=
  ((List.range' i fuel).map fun j =>
    [WireEvent.beginTx (c ||| ((j >>> 8) &&& 1)), WireEvent.writeB (j &&& 255),
     WireEvent.writeB 0, WireEvent.endTx 0]).flatten

/-- A machine state whose fourth bus transaction fails with a data NACK
(status 2); everything else as in initSys. -/
def sysF : Sys :=
  { initSys with faults := fun k => if k = 3 then 2 else 0 }

/-- A machine state on which every transaction ends with the transport
failure status 3 (data NACK). -/
def sysE : Sys :=
  { initSys with faults := fun _ => 3 }

/-- A machine state on which every read request is faulted (the read
phase delivers nothing) while every transaction ends with status 0. -/
def sysRF : Sys :=
  { initSys with rxFaults := fun _ => true }

/-! ### Basic facts about the transport model -/

theorem commit_only_mem_ptr (s : Sys) :
    (Wire.commit s).txSel = s.txSel ∧ (Wire.commit s).txBuf = s.txBuf ∧
    (Wire.commit s).rx = s.rx ∧ (Wire.commit s).log = s.log ∧
    (Wire.commit s).faults = s.faults ∧ (Wire.commit s).rxFaults = s.rxFaults ∧
    (Wire.commit s).txCount = s.txCount ∧ (Wire.commit s).rqCount = s.rqCount ∧
    (Wire.commit s).gpio = s.gpio ∧ (Wire.commit s).pinModes = s.pinModes ∧
    (Wire.commit s).i2c_addr = s.i2c_addr ∧ (Wire.commit s).wpPin = s.wpPin ∧
    (Wire.commit s).wpStatus = s.wpStatus := by
  unfold Wire.commit
  rcases h : s.txBuf with _ | ⟨sub, data⟩ <;> simp [h]

@[simp] theorem commit_log (s : Sys) : (Wire.commit s).log = s.log :=
  (commit_only_mem_ptr s).2.2.2.1

@[simp] theorem commit_faults (s : Sys) : (Wire.commit s).faults = s.faults :=
  (commit_only_mem_ptr s).2.2.2.2.1

@[simp] theorem commit_rxFaults (s : Sys) :
    (Wire.commit s).rxFaults = s.rxFaults :=
  (commit_only_mem_ptr s).2.2.2.2.2.1

@[simp] theorem commit_txCount (s : Sys) : (Wire.commit s).txCount = s.txCount :=
  (commit_only_mem_ptr s).2.2.2.2.2.2.1

@[simp] theorem commit_rqCount (s : Sys) : (Wire.commit s).rqCount = s.rqCount :=
  (commit_only_mem_ptr s).2.2.2.2.2.2.2.1

@[simp] theorem commit_gpio (s : Sys) : (Wire.commit s).gpio = s.gpio :=
  (commit_only_mem_ptr s).2.2.2.2.2.2.2.2.1

@[simp] theorem commit_pinModes (s : Sys) :
    (Wire.commit s).pinModes = s.pinModes :=
  (commit_only_mem_ptr s).2.2.2.2.2.2.2.2.2.1

@[simp] theorem commit_i2c_addr (s : Sys) :
    (Wire.commit s).i2c_addr = s.i2c_addr :=
  (commit_only_mem_ptr s).2.2.2.2.2.2.2.2.2.2.1

@[simp] theorem commit_wpPin (s : Sys) : (Wire.commit s).wpPin = s.wpPin :=
  (commit_only_mem_ptr s).2.2.2.2.2.2.2.2.2.2.2.1

@[simp] theorem commit_wpStatus (s : Sys) :
    (Wire.commit s).wpStatus = s.wpStatus :=
  (commit_only_mem_ptr s).2.2.2.2.2.2.2.2.2.2.2.2

/-! ### C1: out-of-range requests are rejected with no bus activity -/

/-- C1: for every request with 1 ≤ length ≤ 255 and
addr + length > capacity (equivalently addr ≥ capacity or
addr + length − 1 ≥ capacity), both writeArray and readArray return
AddressOutOfRange (ERROR_11) and leave the whole machine state — in
particular the transport event log — untouched (zero transport calls). -/
theorem c1_out_of_range_rejected (addr len : Nat) (vs : List Nat) (s : Sys)
    (h1 : 1 ≤ len) (h2 : len ≤ 255) (h3 : addr < 65536)
    (h4 : addr + len > MAXADDRESS_04) :
    writeArray addr len vs s = (ERROR_11, s) ∧
    readArray addr len vs s = (ERROR_11, vs, s) := by
  have hg : rangeGuardFails addr len = true := by
    unfold rangeGuardFails MAXADDRESS_04 at *
    simp only [Bool.or_eq_true, decide_eq_true_eq]
    omega
  constructor <;> simp [writeArray, readArray, hg]

/-- Witness for C1 at addr = 510, length = 4 on the concrete state. -/
theorem c1_witness :
    (1 ≤ 4 ∧ 4 ≤ 255 ∧ 510 < 65536 ∧ 510 + 4 > MAXADDRESS_04) ∧
    writeArray 510 4 [1, 2, 3, 4] initSys = (ERROR_11, initSys) ∧
    readArray 510 4 [1, 2, 3, 4] initSys = (ERROR_11, [1, 2, 3, 4], initSys) := by
  have h := c1_out_of_range_rejected 510 4 [1, 2, 3, 4] initSys
    (by decide) (by decide) (by decide) (by decide)
  exact ⟨⟨by decide, by decide, by decide, by decide⟩, h.1, h.2⟩

/-! ### C4: zero-length read is rejected with EmptyRequest -/

/-- C4: for every addr < capacity, readArray with length 0 returns
EmptyRequest (ERROR_8) — a code distinct from AddressOutOfRange and from
every transport status (transport codes are ≤ 4) — and leaves the machine
state untouched (no bus activity). -/
theorem c4_empty_read_rejected (addr : Nat) (vs : List Nat) (s : Sys)
    (h : addr < MAXADDRESS_04) :
    readArray addr 0 vs s = (ERROR_8, vs, s) ∧
    ERROR_8 ≠ ERROR_11 ∧ ∀ c, c ≤ 4 → ERROR_8 ≠ c := by
  have hg : rangeGuardFails addr 0 = false := by
    unfold rangeGuardFails MAXADDRESS_04 at *
    simp only [Bool.or_eq_false_iff, decide_eq_false_iff_not]
    omega
  refine ⟨by simp [readArray, hg], by decide, ?_⟩
  intro c hc
  unfold ERROR_8
  omega

/-- Witness for C4 at addr = 0. -/
theorem c4_witness :
    (0 < MAXADDRESS_04) ∧
    readArray 0 0 [5] initSys = (ERROR_8, [5], initSys) := by
  exact ⟨by decide, (c4_empty_read_rejected 0 [5] initSys (by decide)).1⟩

/-! ### C7: bit index out of range is rejected with no side effect -/

/-- C7: for every address and every bit index bitNb > 7, readBit,
setOneBit, clearOneBit and toggleBit return BitIndexOutOfRange (ERROR_9),
perform no bus transaction and leave the machine state — device memory
included — unchanged. -/
theorem c7_bit_index_rejected (addr bitNb : Nat) (s : Sys)
    (h : bitNb > 7) :
    readBit addr bitNb s = (ERROR_9, none, s) ∧
    setOneBit addr bitNb s = (ERROR_9, s) ∧
    clearOneBit addr bitNb s = (ERROR_9, s) ∧
    toggleBit addr bitNb s = (ERROR_9, s) := by
  refine ⟨?_, ?_, ?_, ?_⟩ <;>
    simp [readBit, setOneBit, clearOneBit, toggleBit, h]

/-- Witness for C7 at addr = 3, bitNb = 8. -/
theorem c7_witness :
    (8 > 7) ∧
    readBit 3 8 initSys = (ERROR_9, none, initSys) ∧
    setOneBit 3 8 initSys = (ERROR_9, initSys) ∧
    clearOneBit 3 8 initSys = (ERROR_9, initSys) ∧
    toggleBit 3 8 initSys = (ERROR_9, initSys) := by
  have h := c7_bit_index_rejected 3 8 initSys (by decide)
  exact ⟨by decide, h.1, h.2.1, h.2.2.1, h.2.2.2⟩

/-! ### wpStatus is never touched by transfer operations -/

@[simp] theorem beginTransmission_wpStatus (sel : Nat) (s : Sys) :
    (Wire.beginTransmission sel s).wpStatus = s.wpStatus := rfl

@[simp] theorem write_wpStatus (b : Nat) (s : Sys) :
    (Wire.write b s).wpStatus = s.wpStatus := rfl

@[simp] theorem endTransmission_wpStatus (s : Sys) :
    (Wire.endTransmission s).2.wpStatus = s.wpStatus := by
  simp only [Wire.endTransmission]
  split <;> simp

@[simp] theorem requestFrom_wpStatus (sel n : Nat) (s : Sys) :
    (Wire.requestFrom sel n s).wpStatus = s.wpStatus := rfl

@[simp] theorem read_wpStatus (s : Sys) :
    (Wire.read s).2.wpStatus = s.wpStatus := by
  unfold Wire.read
  rcases h : s.rx with _ | ⟨b, rest⟩ <;> simp

@[simp] theorem writeData_wpStatus (bs : List Nat) (s : Sys) :
    (writeData bs s).wpStatus = s.wpStatus := by
  induction bs generalizing s with
  | nil => rfl
  | cons b rest ih => simp [writeData, ih]

@[simp] theorem readData_wpStatus (n idx : Nat) (vs : List Nat) (s : Sys) :
    (readData n idx vs s).2.wpStatus = s.wpStatus := by
  induction n generalizing idx vs s with
  | zero => rfl
  | succ n ih => simp [readData, ih]

@[simp] theorem writeArray_wpStatus (a n : Nat) (vs : List Nat) (s : Sys) :
    (writeArray a n vs s).2.wpStatus = s.wpStatus := by
  unfold writeArray
  split
  · rfl
  · simp

@[simp] theorem readArray_wpStatus (a n : Nat) (vs : List Nat) (s : Sys) :
    (readArray a n vs s).2.2.wpStatus = s.wpStatus := by
  unfold readArray
  split
  · rfl
  · split
    · rfl
    · simp

@[simp] theorem writeByte_wpStatus (a v : Nat) (s : Sys) :
    (writeByte a v s).2.wpStatus = s.wpStatus := by
  simp [writeByte]

@[simp] theorem readByte_wpStatus (a : Nat) (s : Sys) :
    (readByte a s).2.2.wpStatus = s.wpStatus := by
  simp [readByte]

@[simp] theorem eraseLoop_wpStatus (fuel i r : Nat) (s : Sys) :
    (eraseLoop fuel i r s).2.wpStatus = s.wpStatus := by
  induction fuel generalizing i r s with
  | zero => rfl
  | succ fuel ih =>
      unfold eraseLoop
      split
      · simp [ih]
      · rfl

/-- With `MANAGE_WP = false` the enable operation is a rejected no-op. -/
theorem enableWP_unmanaged (s : Sys) : enableWP s = (ERROR_10, s) := by
  simp [enableWP, MANAGE_WP]

/-- With `MANAGE_WP = false` the disable operation is a rejected no-op. -/
theorem disableWP_unmanaged (s : Sys) : disableWP s = (ERROR_10, s) := by
  simp [disableWP, MANAGE_WP]

/-- No public API call changes the write-protect state variable. -/
theorem Step.wpStatus_eq {s t : Sys} (h : Step s t) :
    t.wpStatus = s.wpStatus := by
  cases h <;>
    simp [copyByte, readBit, setOneBit, clearOneBit, toggleBit, readWord,
      writeWord, readLong, writeLong, eraseDevice, enableWP_unmanaged,
      disableWP_unmanaged] <;>
    (try split) <;> simp

/-- A freshly constructed handle has `wpStatus = false`. -/
theorem construct_wpStatus (a : Nat) (wp : Bool) (pin : Int) (d : Nat)
    (s : Sys) : (construct a wp pin d s).wpStatus = false := by
  simp [construct, initWP, MANAGE_WP]

/-- In every reachable state the write-protect flag reads false. -/
theorem reachable_wpStatus {s : Sys} (h : Reachable s) :
    s.wpStatus = false := by
  induction h with
  | init a wp pin d s0 => exact construct_wpStatus a wp pin d s0
  | step _ hst ih => rw [hst.wpStatus_eq]; exact ih

/-! ### C9: write protect on an unmanaged device -/

/-- C9: the device's write protection is unmanaged (MANAGE_WP is the
compile-time false), so enableWP and disableWP return
OperationNotPermitted (ERROR_10) with the state — GPIO log and
wpStatus included — completely unchanged, and getWPStatus returns
false in every state reachable through the public API. -/
theorem c9_unmanaged_write_protect (s t : Sys) (h : Reachable t) :
    enableWP s = (ERROR_10, s) ∧ disableWP s = (ERROR_10, s) ∧
    getWPStatus t = false :=
  ⟨enableWP_unmanaged s, disableWP_unmanaged s, reachable_wpStatus h⟩

/-- Witness for C9: a freshly constructed handle. -/
theorem c9_witness :
    enableWP initSys = (ERROR_10, initSys) ∧
    disableWP initSys = (ERROR_10, initSys) ∧
    getWPStatus (construct 80 false 13 512 initSys) = false :=
  c9_unmanaged_write_protect initSys (construct 80 false 13 512 initSys)
    (Reachable.init 80 false 13 512 initSys)

/-! ### Characterisation of the transfer primitives -/

theorem baseMap_lt (c a : Nat) : baseMap c a < 512 := by
  unfold baseMap
  have h1 : (c ||| ((a >>> 8) &&& 1)) % 2 < 2 := Nat.mod_lt _ (by norm_num)
  have h2 : a &&& 255 ≤ 255 := Nat.and_le_right
  omega

@[simp] theorem and255_mod256 (a : Nat) : (a &&& 255) % 256 = a &&& 255 :=
  Nat.mod_eq_of_lt (Nat.lt_succ_of_le Nat.and_le_right)

/-- The range guard passes on every in-range nonempty request. -/
theorem rangeGuardFails_eq_false (addr items : Nat) (h1 : 1 ≤ items)
    (h2 : addr + items ≤ MAXADDRESS_04) :
    rangeGuardFails addr items = false := by
  unfold rangeGuardFails MAXADDRESS_04 at *
  simp only [Bool.or_eq_false_iff, decide_eq_false_iff_not]
  omega

theorem writeData_spec (bs : List Nat) (s : Sys) :
    writeData bs s =
      { s with txBuf := s.txBuf ++ bs.map (fun b => b % 256),
               log := s.log ++ bs.map (fun b => WireEvent.writeB (b % 256)) } := by
  induction bs generalizing s with
  | nil => simp [writeData]
  | cons b rest ih => simp [writeData, Wire.write, ih]

@[simp] theorem takeItems_length (n : Nat) (vs : List Nat) :
    (takeItems n vs).length = n := by simp [takeItems]

theorem takeItems_self (vs : List Nat) : takeItems vs.length vs = vs := by
  unfold takeItems
  refine List.ext_getElem (by simp) ?_
  intro i h1 h2
  simp [List.getElem?_eq_getElem h2]

@[simp] theorem commit_txSel (s : Sys) : (Wire.commit s).txSel = s.txSel :=
  (commit_only_mem_ptr s).1

@[simp] theorem commit_txBuf (s : Sys) : (Wire.commit s).txBuf = s.txBuf :=
  (commit_only_mem_ptr s).2.1

@[simp] theorem commit_rx (s : Sys) : (Wire.commit s).rx = s.rx :=
  (commit_only_mem_ptr s).2.2.1

@[simp] theorem endTransmission_fst (s : Sys) :
    (Wire.endTransmission s).1 = s.faults s.txCount := rfl

@[simp] theorem endTransmission_log (s : Sys) :
    (Wire.endTransmission s).2.log =
      s.log ++ [WireEvent.endTx (s.faults s.txCount)] := by
  simp only [Wire.endTransmission]
  split <;> simp

@[simp] theorem endTransmission_txCount (s : Sys) :
    (Wire.endTransmission s).2.txCount = s.txCount + 1 := by
  simp [Wire.endTransmission]

@[simp] theorem endTransmission_faults (s : Sys) :
    (Wire.endTransmission s).2.faults = s.faults := by
  simp only [Wire.endTransmission]
  split <;> simp

@[simp] theorem endTransmission_rxFaults (s : Sys) :
    (Wire.endTransmission s).2.rxFaults = s.rxFaults := by
  simp only [Wire.endTransmission]
  split <;> simp

@[simp] theorem endTransmission_rqCount (s : Sys) :
    (Wire.endTransmission s).2.rqCount = s.rqCount := by
  simp only [Wire.endTransmission]
  split <;> simp

@[simp] theorem endTransmission_i2c_addr (s : Sys) :
    (Wire.endTransmission s).2.i2c_addr = s.i2c_addr := by
  simp only [Wire.endTransmission]
  split <;> simp

@[simp] theorem read_txCount (s : Sys) : (Wire.read s).2.txCount = s.txCount := by
  unfold Wire.read
  rcases h : s.rx with _ | ⟨b, rest⟩ <;> simp

@[simp] theorem readData_txCount (n idx : Nat) (vs : List Nat) (s : Sys) :
    (readData n idx vs s).2.txCount = s.txCount := by
  induction n generalizing idx vs s with
  | zero => rfl
  | succ n ih => simp [readData, ih]

/-- Status, transaction count, fault oracle and event log of an in-range
writeArray, for an arbitrary bus-fault pattern. -/
theorem writeArray_inrange (addr items : Nat) (vs : List Nat) (s : Sys)
    (hg : rangeGuardFails addr items = false) :
    (writeArray addr items vs s).1 = s.faults s.txCount ∧
    (writeArray addr items vs s).2.txCount = s.txCount + 1 ∧
    (writeArray addr items vs s).2.faults = s.faults ∧
    (writeArray addr items vs s).2.log =
      s.log ++ [WireEvent.beginTx (s.i2c_addr ||| ((addr >>> 8) &&& 1)),
                WireEvent.writeB (addr &&& 255)] ++
        (takeItems items vs).map (fun b => WireEvent.writeB (b % 256)) ++
        [WireEvent.endTx (s.faults s.txCount)] := by
  refine ⟨?_, ?_, ?_, ?_⟩ <;>
    simp [writeArray, hg, writeData_spec, Wire.write, Wire.beginTransmission]

/-! ### C3: in-range writeArray performs exactly one bus transaction -/

/-- C3: an in-range writeArray (1 ≤ length ≤ 255, addr + length ≤
capacity, a buffer of exactly length bytes) performs exactly one bus
transaction — beginTransmission with selector i2c_addr OR bit 8 of addr,
one sub-address byte addr AND 0xFF, then the data bytes in order, one
endTransmission — and returns the end-of-transaction status verbatim,
with no retry (the transaction counter grows by exactly one). -/
theorem c3_write_transaction (addr len : Nat) (vs : List Nat) (s : Sys)
    (h1 : 1 ≤ len) (h2 : len ≤ 255) (h3 : addr + len ≤ MAXADDRESS_04)
    (h4 : vs.length = len) (h5 : ∀ b ∈ vs, b < 256) :
    (writeArray addr len vs s).1 = s.faults s.txCount ∧
    (writeArray addr len vs s).2.log =
      s.log ++ [WireEvent.beginTx (s.i2c_addr ||| ((addr >>> 8) &&& 1)),
                WireEvent.writeB (addr &&& 255)] ++
        vs.map WireEvent.writeB ++
        [WireEvent.endTx (s.faults s.txCount)] ∧
    (writeArray addr len vs s).2.txCount = s.txCount + 1 := by
  have hg := rangeGuardFails_eq_false addr len h1 h3
  have hi := writeArray_inrange addr len vs s hg
  have ht : takeItems len vs = vs := by rw [← h4]; exact takeItems_self vs
  have hmap : vs.map (fun b => WireEvent.writeB (b % 256)) =
      vs.map WireEvent.writeB :=
    List.map_congr_left fun b hb => by rw [Nat.mod_eq_of_lt (h5 b hb)]
  refine ⟨hi.1, ?_, hi.2.1⟩
  rw [hi.2.2.2, ht, hmap]

/-- Witness for C3: a 2-byte write at address 300 (exercising the folded
address bit) on a bus that NACKs every transaction with status 3: the
status is returned verbatim and the log shows the one transaction. -/
theorem c3_witness :
    (1 ≤ 2 ∧ 2 ≤ 255 ∧ 300 + 2 ≤ MAXADDRESS_04 ∧
      ([10, 20] : List Nat).length = 2) ∧
    (writeArray 300 2 [10, 20] sysE).1 = 3 ∧
    (writeArray 300 2 [10, 20] sysE).2.log =
      [WireEvent.beginTx 81, WireEvent.writeB 44, WireEvent.writeB 10,
       WireEvent.writeB 20, WireEvent.endTx 3] ∧
    (writeArray 300 2 [10, 20] sysE).2.txCount = 1 := by
  have h := c3_write_transaction 300 2 [10, 20] sysE (by decide) (by decide)
    (by decide) (by decide) (by decide)
  refine ⟨by decide, ?_, ?_, ?_⟩
  · rw [h.1]; rfl
  · rw [h.2.1]; rfl
  · rw [h.2.2]; rfl

/-! ### C5: readArray status comes from the address phase only -/

/-- C5: for every in-range readArray with length ≥ 1, the returned status
is exactly the end-of-transaction status of the address phase (the fault
oracle's verdict on the one transaction issued), whatever the read-request
phase does — the state s carries an arbitrary read-fault pattern — and
only that one transaction is ever ended (txCount grows by one). -/
theorem c5_read_status_from_address_phase (addr items : Nat) (vs : List Nat)
    (s : Sys) (h1 : 1 ≤ items) (h3 : addr + items ≤ MAXADDRESS_04) :
    (readArray addr items vs s).1 = s.faults s.txCount ∧
    (readArray addr items vs s).2.2.txCount = s.txCount + 1 := by
  have hg := rangeGuardFails_eq_false addr items h1 h3
  have hi : items ≠ 0 := by omega
  constructor <;>
    simp [readArray, hg, hi, Wire.beginTransmission, Wire.write,
      Wire.requestFrom]

/-- Witness for C5: on a state whose every read request fails (nothing is
delivered, the buffer fills with 255s), an in-range read still returns
the address-phase status 0. -/
theorem c5_witness :
    (1 ≤ 2 ∧ 5 + 2 ≤ MAXADDRESS_04) ∧
    (readArray 5 2 [9, 9] sysRF).1 = 0 ∧
    (readArray 5 2 [9, 9] sysRF).2.2.txCount = 1 ∧
    (readArray 5 2 [9, 9] sysRF).2.1 = [255, 255] := by
  have h := c5_read_status_from_address_phase 5 2 [9, 9] sysRF
    (by decide) (by decide)
  refine ⟨by decide, ?_, ?_, by decide⟩
  · rw [h.1]; rfl
  · rw [h.2]; rfl

/-- Full effect of an in-range single-byte write on a transaction that
succeeds: the device byte selected by baseMap is updated, one transaction
is logged. -/
theorem writeArray_one_ok (addr v : Nat) (s : Sys)
    (ha : addr < MAXADDRESS_04) (hf : s.faults s.txCount = 0) :
    writeArray addr 1 [v] s =
      (0, { s with
              mem := Function.update s.mem (baseMap s.i2c_addr addr) (v % 256),
              ptr := (baseMap s.i2c_addr addr + 1) % 512,
              txSel := s.i2c_addr ||| ((addr >>> 8) &&& 1),
              txBuf := [],
              txCount := s.txCount + 1,
              log := s.log ++
                [WireEvent.beginTx (s.i2c_addr ||| ((addr >>> 8) &&& 1)),
                 WireEvent.writeB (addr &&& 255),
                 WireEvent.writeB (v % 256),
                 WireEvent.endTx 0] }) := by
  have hg : rangeGuardFails addr 1 = false :=
    rangeGuardFails_eq_false addr 1 le_rfl
      (by unfold MAXADDRESS_04 at *; omega)
  have hb : (s.i2c_addr ||| addr >>> 8 % 2) % 2 * 256 + (addr &&& 255) < 512 := by
    have h1 : (s.i2c_addr ||| addr >>> 8 % 2) % 2 < 2 := Nat.mod_lt _ (by norm_num)
    have h2 : addr &&& 255 ≤ 255 := Nat.and_le_right
    omega
  simp [writeArray, hg, takeItems, List.range_succ, writeData,
    Wire.beginTransmission, Wire.write, Wire.endTransmission, Wire.commit,
    storeBytes, baseMap, hf, Nat.mod_eq_of_lt hb]

/-- Full effect of an in-range single-byte read whose address phase
succeeds and whose read request is not faulted: the caller's buffer gets
the device byte selected by baseMap, device memory is untouched. -/
theorem readArray_one_ok (addr : Nat) (vs : List Nat) (s : Sys)
    (ha : addr < MAXADDRESS_04)
    (hf : s.faults s.txCount = 0) (hrx : s.rxFaults s.rqCount = false) :
    readArray addr 1 vs s =
      (0, vs.set 0 (s.mem (baseMap s.i2c_addr addr) % 256),
       { s with
           ptr := (baseMap s.i2c_addr addr + 1) % 512,
           txSel := s.i2c_addr ||| ((addr >>> 8) &&& 1),
           txBuf := [],
           rx := [],
           txCount := s.txCount + 1,
           rqCount := s.rqCount + 1,
           log := s.log ++
             [WireEvent.beginTx (s.i2c_addr ||| ((addr >>> 8) &&& 1)),
              WireEvent.writeB (addr &&& 255),
              WireEvent.endTx 0,
              WireEvent.requestFromEv s.i2c_addr 1,
              WireEvent.readB (s.mem (baseMap s.i2c_addr addr) % 256)] }) := by
  have hg : rangeGuardFails addr 1 = false :=
    rangeGuardFails_eq_false addr 1 le_rfl
      (by unfold MAXADDRESS_04 at *; omega)
  have hb : (s.i2c_addr ||| addr >>> 8 % 2) % 2 * 256 + (addr &&& 255) < 512 := by
    have h1 : (s.i2c_addr ||| addr >>> 8 % 2) % 2 < 2 := Nat.mod_lt _ (by norm_num)
    have h2 : addr &&& 255 ≤ 255 := Nat.and_le_right
    omega
  simp [readArray, hg, readData, fetchBytes, List.range_succ,
    Wire.beginTransmission, Wire.write, Wire.endTransmission, Wire.commit,
    Wire.requestFrom, Wire.read, storeBytes, baseMap, hf, hrx,
    Nat.mod_eq_of_lt hb]

/-- The value a single-byte read hands back: the device byte at the
address baseMap selects. -/
theorem readByte_ok (a : Nat) (s : Sys) (ha : a < MAXADDRESS_04)
    (hf : s.faults s.txCount = 0) (hrx : s.rxFaults s.rqCount = false) :
    (readByte a s).2.1 = s.mem (baseMap s.i2c_addr a) % 256 := by
  simp only [readByte]
  rw [readArray_one_ok a [0] s ha hf hrx]
  rfl

/-! ### C2: write-then-read round-trip -/

/-- C2: for every valid address a and byte value v, on a fault-free bus,
writeByte a v followed by readByte a yields v back. -/
theorem c2_write_read_roundtrip (a v : Nat) (s : Sys)
    (ha : a < MAXADDRESS_04) (hv : v < 256) (hff : faultFree s) :
    (readByte a (writeByte a v s).2).2.1 = v := by
  obtain ⟨hf, hrx⟩ := hff
  have hw : (writeByte a v s).2 =
      { s with
          mem := Function.update s.mem (baseMap s.i2c_addr a) (v % 256),
          ptr := (baseMap s.i2c_addr a + 1) % 512,
          txSel := s.i2c_addr ||| ((a >>> 8) &&& 1),
          txBuf := [],
          txCount := s.txCount + 1,
          log := s.log ++
            [WireEvent.beginTx (s.i2c_addr ||| ((a >>> 8) &&& 1)),
             WireEvent.writeB (a &&& 255),
             WireEvent.writeB (v % 256),
             WireEvent.endTx 0] } := by
    simp only [writeByte]
    rw [writeArray_one_ok a v s ha (hf _)]
  rw [hw, readByte_ok a]
  · simp [Nat.mod_eq_of_lt hv]
  · exact ha
  · exact hf _
  · exact hrx _

/-- Witness for C2 at a = 3, v = 77 on the fault-free concrete state. -/
theorem c2_witness :
    (3 < MAXADDRESS_04 ∧ 77 < 256) ∧
    (readByte 3 (writeByte 3 77 initSys).2).2.1 = 77 :=
  ⟨⟨by decide, by decide⟩,
   c2_write_read_roundtrip 3 77 initSys (by decide) (by decide)
     ⟨fun _ => rfl, fun _ => rfl⟩⟩

/-! ### C8: toggleBit semantics -/

theorem toggleByteFn_cond (m i : Nat) :
    (m &&& (1 <<< i) = 1 <<< i) ↔ m.testBit i = true := by
  rw [Nat.one_shiftLeft, Nat.and_two_pow]
  cases h : m.testBit i <;>
    simp [(Nat.two_pow_pos i).ne, (Nat.two_pow_pos i).ne']

theorem testBit_255 (j : Nat) : (255 : Nat).testBit j = decide (j < 8) := by
  have h : (255 : Nat) = 2 ^ 8 - 1 := by norm_num
  rw [h, Nat.testBit_two_pow_sub_one]

theorem toggleByteFn_testBit (m i : Nat) (hm : m < 256) (hi : i ≤ 7) :
    ((toggleByteFn m i).testBit i = !m.testBit i) ∧
    (∀ j, j ≠ i → (toggleByteFn m i).testBit j = m.testBit j) ∧
    toggleByteFn m i < 256 := by
  have hi8 : i < 8 := by omega
  have hhigh : ∀ j, 8 ≤ j → m.testBit j = false := by
    intro j hj
    have h8 : (256 : Nat) ≤ 2 ^ j := by
      have : (2 : Nat) ^ 8 ≤ 2 ^ j := Nat.pow_le_pow_right (by norm_num) hj
      simpa using this
    exact Nat.testBit_lt_two_pow (lt_of_lt_of_le hm h8)
  have hcnd := toggleByteFn_cond m i
  unfold toggleByteFn
  by_cases hc : m.testBit i = true
  · rw [if_pos (hcnd.mpr hc)]
    refine ⟨?_, ?_, ?_⟩
    · simp [Nat.testBit_and, Nat.testBit_xor, Nat.one_shiftLeft,
        testBit_255, Nat.testBit_two_pow, hc, hi8]
    · intro j hj
      rcases Nat.lt_or_ge j 8 with hjlt | hjge
      · simp [Nat.testBit_and, Nat.testBit_xor, Nat.one_shiftLeft,
          testBit_255, Nat.testBit_two_pow, hjlt, Ne.symm hj]
      · simp [Nat.testBit_and, Nat.testBit_xor, Nat.one_shiftLeft,
          testBit_255, Nat.testBit_two_pow, hhigh j hjge,
          (show ¬ j < 8 by omega)]
    · exact lt_of_le_of_lt Nat.and_le_left hm
  · rw [if_neg fun hcc => hc (hcnd.mp hcc)]
    have hcf : m.testBit i = false := by
      cases h : m.testBit i
      · rfl
      · exact absurd h hc
    refine ⟨?_, ?_, ?_⟩
    · simp [Nat.testBit_or, Nat.one_shiftLeft, Nat.testBit_two_pow, hcf]
    · intro j hj
      simp [Nat.testBit_or, Nat.one_shiftLeft, Nat.testBit_two_pow,
        Ne.symm hj]
    · rw [Nat.one_shiftLeft]
      have h2i : (2 : Nat) ^ i < 2 ^ 8 :=
        Nat.pow_lt_pow_right (by norm_num) hi8
      have hor := Nat.or_lt_two_pow (show m < 2 ^ 8 by simpa using hm) h2i
      simpa using hor

theorem toggleByteFn_involutive (m i : Nat) (hm : m < 256) (hi : i ≤ 7) :
    toggleByteFn (toggleByteFn m i) i = m := by
  have h1 := toggleByteFn_testBit m i hm hi
  have h2 := toggleByteFn_testBit (toggleByteFn m i) i h1.2.2 hi
  apply Nat.eq_of_testBit_eq
  intro j
  by_cases hj : j = i
  · subst hj
    rw [h2.1, h1.1, Bool.not_not]
  · rw [h2.2.1 j hj, h1.2.1 j hj]

/-- State-level effect of an in-range toggleBit on a fault-free bus: the
selected device byte becomes toggleByteFn of its old value, the fault
oracle and the member selector are untouched. -/
theorem toggleBit_state (a i : Nat) (s : Sys) (ha : a < MAXADDRESS_04)
    (hi : i ≤ 7) (hm : s.mem (baseMap s.i2c_addr a) < 256)
    (hf : ∀ k, s.faults k = 0) (hrx : ∀ k, s.rxFaults k = false) :
    (toggleBit a i s).2.mem =
      Function.update s.mem (baseMap s.i2c_addr a)
        (toggleByteFn (s.mem (baseMap s.i2c_addr a)) i) ∧
    (toggleBit a i s).2.faults = s.faults ∧
    (toggleBit a i s).2.rxFaults = s.rxFaults ∧
    (toggleBit a i s).2.i2c_addr = s.i2c_addr := by
  have hgt : ¬ i > 7 := by omega
  simp only [toggleBit, if_neg hgt]
  rw [readArray_one_ok a [0] s ha (hf _) (hrx _)]
  simp only [List.set]
  have hmod : s.mem (baseMap s.i2c_addr a) % 256 =
      s.mem (baseMap s.i2c_addr a) := Nat.mod_eq_of_lt hm
  rw [show ([s.mem (baseMap s.i2c_addr a) % 256].getD 0 0) =
    s.mem (baseMap s.i2c_addr a) from by rw [hmod]; rfl]
  rw [writeArray_one_ok a]
  · have hlt := (toggleByteFn_testBit (s.mem (baseMap s.i2c_addr a)) i hm hi).2.2
    have hlt2 : toggleByteFn
        (s.mem ((s.i2c_addr ||| a >>> 8 % 2) % 2 * 256 + (a &&& 255))) i <
        256 := by
      simpa [baseMap, Nat.and_one_is_mod] using hlt
    simp [baseMap, Nat.mod_eq_of_lt hlt2]
  · exact ha
  · exact hf _

/-- C8: for every valid address a and bit index i ≤ 7, on a fault-free
bus, toggleBit a i flips bit i of the addressed device byte — it reads 0
if it was 1 and 1 otherwise — leaves the other bits of that byte
unchanged, and applying toggleBit a i twice restores the byte to its
original value. -/
theorem c8_toggleBit (a i : Nat) (s : Sys) (ha : a < MAXADDRESS_04)
    (hi : i ≤ 7) (hm : s.mem (baseMap s.i2c_addr a) < 256)
    (hff : faultFree s) :
    (((toggleBit a i s).2.mem (baseMap s.i2c_addr a)).testBit i =
      !((s.mem (baseMap s.i2c_addr a)).testBit i)) ∧
    (∀ j, j ≠ i →
      ((toggleBit a i s).2.mem (baseMap s.i2c_addr a)).testBit j =
        (s.mem (baseMap s.i2c_addr a)).testBit j) ∧
    (toggleBit a i ((toggleBit a i s).2)).2.mem (baseMap s.i2c_addr a) =
      s.mem (baseMap s.i2c_addr a) := by
  obtain ⟨hf, hrx⟩ := hff
  have hbit := toggleByteFn_testBit (s.mem (baseMap s.i2c_addr a)) i hm hi
  have h1 := toggleBit_state a i s ha hi hm hf hrx
  have t1mem : (toggleBit a i s).2.mem (baseMap s.i2c_addr a) =
      toggleByteFn (s.mem (baseMap s.i2c_addr a)) i := by
    rw [h1.1, Function.update_same]
  refine ⟨by rw [t1mem, hbit.1], fun j hj => by rw [t1mem, hbit.2.1 j hj], ?_⟩
  have h2 := toggleBit_state a i ((toggleBit a i s).2) ha hi
    (by rw [h1.2.2.2, t1mem]; exact hbit.2.2)
    (by rw [h1.2.1]; exact hf) (by rw [h1.2.2.1]; exact hrx)
  rw [h2.1, h1.2.2.2, Function.update_same, t1mem,
    toggleByteFn_involutive _ i hm hi]

/-- Witness for C8 at a = 5, i = 3 on the fault-free concrete state. -/
theorem c8_witness :
    (5 < MAXADDRESS_04 ∧ 3 ≤ 7 ∧
      initSys.mem (baseMap initSys.i2c_addr 5) < 256) ∧
    ((toggleBit 5 3 initSys).2.mem (baseMap initSys.i2c_addr 5)).testBit 3 =
      !((initSys.mem (baseMap initSys.i2c_addr 5)).testBit 3) ∧
    (toggleBit 5 3 ((toggleBit 5 3 initSys).2)).2.mem
        (baseMap initSys.i2c_addr 5) =
      initSys.mem (baseMap initSys.i2c_addr 5) := by
  have h := c8_toggleBit 5 3 initSys (by decide) (by decide) (by decide)
    ⟨fun _ => rfl, fun _ => rfl⟩
  exact ⟨⟨by decide, by decide, by decide⟩, h.1, h.2.2⟩

/-! ### C6: eraseDevice -/

theorem eraseLoop_nonzero (fuel i r : Nat) (s : Sys) (hr : r ≠ 0) :
    eraseLoop fuel i r s = (r, s) := by
  cases fuel with
  | zero => rfl
  | succ fuel =>
      unfold eraseLoop
      rw [if_neg fun h => hr h.2]

@[simp] theorem eraseTraceFrom_zero (c i : Nat) : eraseTraceFrom c i 0 = [] :=
  rfl

theorem eraseTraceFrom_succ (c i fuel : Nat) :
    eraseTraceFrom c i (fuel + 1) =
      [WireEvent.beginTx (c ||| ((i >>> 8) &&& 1)),
       WireEvent.writeB (i &&& 255), WireEvent.writeB 0,
       WireEvent.endTx 0] ++ eraseTraceFrom c (i + 1) fuel := by
  simp [eraseTraceFrom, List.range'_succ]

theorem eraseLoop_step (fuel i : Nat) (s : Sys) (hi : i < MAXADDRESS_04) :
    eraseLoop (fuel + 1) i 0 s =
      eraseLoop fuel (i + 1) (writeByte i 0 s).1 (writeByte i 0 s).2 := by
  conv_lhs => unfold eraseLoop
  rw [if_pos ⟨hi, rfl⟩]

/-- Fault-free run of the erase loop from address i with fuel
MAXADDRESS_04 − i: returns 0, performs one write transaction per
address in ascending order, and zeroes every device byte the addresses
map to (while never un-zeroing a byte). -/
theorem eraseLoop_ok (fuel : Nat) :
    ∀ (i : Nat) (s : Sys), i + fuel = MAXADDRESS_04 →
    (∀ k, s.faults k = 0) →
    (eraseLoop fuel i 0 s).1 = 0 ∧
    (eraseLoop fuel i 0 s).2.txCount = s.txCount + fuel ∧
    (eraseLoop fuel i 0 s).2.faults = s.faults ∧
    (eraseLoop fuel i 0 s).2.rxFaults = s.rxFaults ∧
    (eraseLoop fuel i 0 s).2.i2c_addr = s.i2c_addr ∧
    (eraseLoop fuel i 0 s).2.rqCount = s.rqCount ∧
    (eraseLoop fuel i 0 s).2.log =
      s.log ++ eraseTraceFrom s.i2c_addr i fuel ∧
    (∀ x, s.mem x = 0 → (eraseLoop fuel i 0 s).2.mem x = 0) ∧
    (∀ a, i ≤ a → a < i + fuel →
      (eraseLoop fuel i 0 s).2.mem (baseMap s.i2c_addr a) = 0) := by
  induction fuel with
  | zero =>
      intro i s hfuel hf
      refine ⟨rfl, by simp [eraseLoop], rfl, rfl, rfl, rfl, by simp [eraseLoop],
        fun x hx => hx, fun a h1 h2 => absurd h2 (by omega)⟩
  | succ fuel ih =>
      intro i s hfuel hf
      have hi : i < MAXADDRESS_04 := by omega
      have hw := writeArray_one_ok i 0 s hi (hf _)
      have hr1 : (writeByte i 0 s).1 = 0 := by
        simp only [writeByte]
        rw [hw]
      have hfS1 : ∀ k, (writeByte i 0 s).2.faults k = 0 := by
        intro k
        simp only [writeByte]
        rw [hw]
        exact hf k
      obtain ⟨ih1, ih2, ih3, ih4, ih5, ih6, ih7, ih8, ih9⟩ :=
        ih (i + 1) (writeByte i 0 s).2 (by omega) hfS1
      have hS1tx : (writeByte i 0 s).2.txCount = s.txCount + 1 := by
        simp only [writeByte]; rw [hw]
      have hS1f : (writeByte i 0 s).2.faults = s.faults := by
        simp only [writeByte]; rw [hw]
      have hS1rf : (writeByte i 0 s).2.rxFaults = s.rxFaults := by
        simp only [writeByte]; rw [hw]
      have hS1i : (writeByte i 0 s).2.i2c_addr = s.i2c_addr := by
        simp only [writeByte]; rw [hw]
      have hS1rq : (writeByte i 0 s).2.rqCount = s.rqCount := by
        simp only [writeByte]; rw [hw]
      have hS1log : (writeByte i 0 s).2.log = s.log ++
          [WireEvent.beginTx (s.i2c_addr ||| ((i >>> 8) &&& 1)),
           WireEvent.writeB (i &&& 255), WireEvent.writeB 0,
           WireEvent.endTx 0] := by
        simp only [writeByte]; rw [hw]
      have hS1mem : (writeByte i 0 s).2.mem =
          Function.update s.mem (baseMap s.i2c_addr i) 0 := by
        simp only [writeByte]; rw [hw]
      rw [eraseLoop_step fuel i s hi, hr1]
      refine ⟨ih1, ?_, ?_, ?_, ?_, ?_, ?_, ?_, ?_⟩
      · rw [ih2, hS1tx]; omega
      · rw [ih3, hS1f]
      · rw [ih4, hS1rf]
      · rw [ih5, hS1i]
      · rw [ih6, hS1rq]
      · rw [ih7, hS1log, hS1i, eraseTraceFrom_succ, List.append_assoc]
      · intro x hx
        apply ih8
        rw [hS1mem, Function.update_apply]
        split
        · rfl
        · exact hx
      · intro a h1 h2
        rcases Nat.eq_or_lt_of_le h1 with heq | hlt
        · subst heq
          apply ih8
          rw [hS1mem, Function.update_same]
        · have := ih9 a hlt (by omega)
          rw [hS1i] at this
          exact this

/-- The erase loop stops at the first failing write transaction and
returns its status verbatim. -/
theorem eraseLoop_stop (k : Nat) : ∀ (fuel i : Nat) (s : Sys),
    k < fuel → i + fuel = MAXADDRESS_04 →
    (∀ j, j < k → s.faults (s.txCount + j) = 0) →
    s.faults (s.txCount + k) ≠ 0 →
    (eraseLoop fuel i 0 s).1 = s.faults (s.txCount + k) ∧
    (eraseLoop fuel i 0 s).2.txCount = s.txCount + k + 1 := by
  induction k with
  | zero =>
      intro fuel i s hk hfuel hpre hfault
      obtain ⟨fuel, rfl⟩ : ∃ f, fuel = f + 1 := ⟨fuel - 1, by omega⟩
      have hi : i < MAXADDRESS_04 := by omega
      have hg : rangeGuardFails i 1 = false :=
        rangeGuardFails_eq_false i 1 le_rfl (by omega)
      have hwa := writeArray_inrange i 1 [0] s hg
      have he : s.faults s.txCount ≠ 0 := by simpa using hfault
      rw [eraseLoop_step fuel i s hi]
      rw [show (writeByte i 0 s).1 = s.faults s.txCount from hwa.1]
      rw [eraseLoop_nonzero fuel (i + 1) _ _ he]
      refine ⟨by simp, ?_⟩
      have ht : (writeByte i 0 s).2.txCount = s.txCount + 1 := hwa.2.1
      simp [ht]
  | succ k ih =>
      intro fuel i s hk hfuel hpre hfault
      obtain ⟨fuel, rfl⟩ : ∃ f, fuel = f + 1 := ⟨fuel - 1, by omega⟩
      have hi : i < MAXADDRESS_04 := by omega
      have hw := writeArray_one_ok i 0 s hi (by simpa using hpre 0 (by omega))
      have hr1 : (writeByte i 0 s).1 = 0 := by
        simp only [writeByte]; rw [hw]
      have hS1tx : (writeByte i 0 s).2.txCount = s.txCount + 1 := by
        simp only [writeByte]; rw [hw]
      have hS1f : (writeByte i 0 s).2.faults = s.faults := by
        simp only [writeByte]; rw [hw]
      have hpre' : ∀ j, j < k →
          (writeByte i 0 s).2.faults ((writeByte i 0 s).2.txCount + j) = 0 := by
        intro j hj
        rw [hS1f, hS1tx,
          show s.txCount + 1 + j = s.txCount + (j + 1) from by omega]
        exact hpre (j + 1) (by omega)
      have hfault' :
          (writeByte i 0 s).2.faults ((writeByte i 0 s).2.txCount + k) ≠ 0 := by
        rw [hS1f, hS1tx,
          show s.txCount + 1 + k = s.txCount + (k + 1) from by omega]
        exact hfault
      obtain ⟨ih1, ih2⟩ := ih fuel (i + 1) (writeByte i 0 s).2
        (by omega) (by omega) hpre' hfault'
      rw [eraseLoop_step fuel i s hi, hr1]
      constructor
      · rw [ih1, hS1f, hS1tx,
          show s.txCount + 1 + k = s.txCount + (k + 1) from by omega]
      · rw [ih2, hS1tx]
        omega

/-- C6: eraseDevice writes 0x00 to logical addresses 0..capacity−1 in
ascending order through the single-byte write primitive (visible in the
transaction trace), stopping at the first nonzero status code and
returning it; on a fault-free bus it returns 0, performs exactly
capacity write transactions, and afterwards every device byte reads
back as 0x00. -/
theorem c6_eraseDevice (s : Sys) :
    (faultFree s →
      (eraseDevice s).1 = 0 ∧
      (eraseDevice s).2.txCount = s.txCount + MAXADDRESS_04 ∧
      (eraseDevice s).2.log =
        s.log ++ eraseTraceFrom s.i2c_addr 0 MAXADDRESS_04 ∧
      (∀ a, a < MAXADDRESS_04 → (readByte a (eraseDevice s).2).2.1 = 0)) ∧
    (∀ k, k < MAXADDRESS_04 →
      (∀ j, j < k → s.faults (s.txCount + j) = 0) →
      s.faults (s.txCount + k) ≠ 0 →
      (eraseDevice s).1 = s.faults (s.txCount + k) ∧
      (eraseDevice s).2.txCount = s.txCount + k + 1) := by
  constructor
  · rintro ⟨hf, hrx⟩
    simp only [eraseDevice]
    obtain ⟨h1, h2, h3, h4, h5, h6, h7, h8, h9⟩ :=
      eraseLoop_ok MAXADDRESS_04 0 s (by omega) hf
    refine ⟨h1, h2, h7, ?_⟩
    intro a ha
    have hf2 : (eraseLoop MAXADDRESS_04 0 0 s).2.faults
        ((eraseLoop MAXADDRESS_04 0 0 s).2.txCount) = 0 := by
      rw [h3]; exact hf _
    have hrx2 : (eraseLoop MAXADDRESS_04 0 0 s).2.rxFaults
        ((eraseLoop MAXADDRESS_04 0 0 s).2.rqCount) = false := by
      rw [h4]; exact hrx _
    rw [readByte_ok a ((eraseLoop MAXADDRESS_04 0 0 s).2) ha hf2 hrx2, h5,
      h9 a (by omega) (by omega)]
  · intro k hk hpre hfault
    exact eraseLoop_stop k MAXADDRESS_04 0 s hk (by omega) hpre hfault

/-- Witness for C6: fault-free erase on the concrete state, plus a bus
whose fourth transaction NACKs with status 2 — erase stops there and
returns 2 after exactly four transactions. -/
theorem c6_witness :
    (eraseDevice initSys).1 = 0 ∧
    (eraseDevice initSys).2.txCount = MAXADDRESS_04 ∧
    (readByte 7 (eraseDevice initSys).2).2.1 = 0 ∧
    (eraseDevice sysF).1 = 2 ∧
    (eraseDevice sysF).2.txCount = 4 := by
  obtain ⟨ha1, ha2, ha3, ha4⟩ :=
    (c6_eraseDevice initSys).1 ⟨fun _ => rfl, fun _ => rfl⟩
  have hb := (c6_eraseDevice sysF).2 3 (by decide) (by decide) (by decide)
  refine ⟨ha1, ?_, ha4 7 (by decide), ?_, ?_⟩
  · rw [ha2]; rfl
  · rw [hb.1]; rfl
  · rw [hb.2]; rfl

/-! ### C10: constructor parameter handling -/

/-- C10, evaluated at a concrete failing input: the constructor body
(line 37) assigns the selector parameter to itself, so the stored member
selector keeps its prior indeterminate value (the ambient 0x50, not the
0x51 passed in), and the chipDensity parameter (2048) is never stored:
the address-range validation of the transfer primitives is against the
fixed compile-time MAXADDRESS_04 = 512, so address 1000 — valid for a
2048-byte part — is rejected as out of range. -/
theorem c10_constructor_ignores_params :
    (construct 81 false 13 2048 initSys).i2c_addr = initSys.i2c_addr ∧
    (construct 81 false 13 2048 initSys).i2c_addr ≠ 81 ∧
    1000 < 2048 ∧
    (writeArray 1000 1 [7] (construct 81 false 13 2048 initSys)).1 =
      ERROR_11 := by
  exact ⟨rfl, by decide, by decide, by decide⟩
